import Mathlib

/-!
Verification of the propose → evaluate → classify → confirm pipeline of
`src/static/app.js` (human-ai-chess). The browser-side orchestration code is
shallowly embedded: module-level mutable state becomes an explicit `AppState`
record, the DOM click/drop handlers become pure state-transition functions,
and the external collaborators (chess rules engine, evaluation / commit HTTP
services) become oracle parameters, since the spec places them out of scope.
JS numbers holding centipawn scores are integers in every contract, so they
are embedded as `Int`; chart tick values may be fractional and are `ℚ`.
DOM-only effects (chip, status line, banners, CSS box shadows) are dropped:
they read the modelled state but never feed back into it.
-/

/-- Band returned by `evalBandInfo`: a coarse index in `[-2,2]` plus a
human-facing label (app.js lines 23-36). -/
structure BandInfo where
  index : Int
  label : String
  deriving Repr, DecidableEq

/-- Embedding of `evalBandInfo` (app.js 23-36). The JS computes
`pawns = cp / 100.0` and compares against 1.5 / 0.5 / -0.5 / -1.5 with strict
`>` cascading downward. For integer `cp` the IEEE-double comparisons coincide
with exact rational comparisons (each threshold is exactly representable and
division is correctly rounded, so a quotient crosses a threshold exactly when
the real quotient does), hence the embedding over `ℚ`. -/
def evalBandInfo (cp : Int) : BandInfo :=
  let pawns : ℚ := (cp : ℚ) / 100
  if pawns > 3/2 then ⟨2, "Winning for White"⟩
  else if pawns > 1/2 then ⟨1, "Better for White"⟩
  else if pawns > -(1/2) then ⟨0, "Roughly equal"⟩
  else if pawns > -(3/2) then ⟨-1, "Better for Black"⟩
  else ⟨-2, "Winning for Black"⟩

/-- Embedding of JavaScript `Math.round` on rational inputs: round half toward
positive infinity, i.e. `⌊x + 1/2⌋`. -/
def jsRound (x : ℚ) : Int := ⌊x + 1/2⌋

/-- Embedding of `bandLabelFromIndex` (app.js 38-47): a `switch` on
`Math.round(index)` with an empty-string `default` branch. -/
def bandLabelFromIndex (index : ℚ) : String :=
  let r := jsRound index
  if r = 2 then "Winning for White"
  else if r = 1 then "Better for White"
  else if r = 0 then "Equal"
  else if r = -1 then "Better for Black"
  else if r = -2 then "Winning for Black"
  else ""

/-- Embedding of `evalDepth` (app.js 184-191): a `switch` on the module-level
`difficulty` string, here passed explicitly. -/
def evalDepth (difficulty : String) : Nat :=
  match difficulty with
  | "easy" => 8
  | "medium" => 12
  | "hard" => 18
  | _ => 12

/-- Embedding of `bestMoveDepth` (app.js 193-200). -/
def bestMoveDepth (difficulty : String) : Nat :=
  match difficulty with
  | "easy" => 10
  | "medium" => 16
  | "hard" => 22
  | _ => 18

/-- Response of the evaluation service (`/api/eval-move`), as consumed by
`onDrop` and the confirm handler: `userCp`, `bucket`, `message`, `reason`. -/
structure EvalResult where
  userCp : Int
  bucket : String
  message : String
  reason : String
  deriving Repr, DecidableEq

/-- The module-level `pending` object (app.js 10, built at 388-396):
`{ from, to, uci, eval, san, color, captured }`. `from` and `to` are Lean
keywords, so those fields are `fromSq`/`toSq`. -/
structure Pending where
  fromSq : String
  toSq : String
  uci : String
  eval : EvalResult
  san : String
  color : String
  captured : Option String
  deriving Repr, DecidableEq

/-- One entry of `moveHistory` (app.js 19, pushed at 618-622 and 448-452):
`{ color, san, captured }`. -/
structure MoveRecord where
  color : String
  san : String
  captured : Option String
  deriving Repr, DecidableEq

/-- Piece description returned by the rules engine's `game.get(square)`:
`{ type, color }`; `type` is a Lean keyword, hence `ptype`/`pcolor`. -/
structure Piece where
  ptype : String
  pcolor : String
  deriving Repr, DecidableEq

/-- Move object returned by the rules engine's `game.move(...)`: the fields of
it that app.js reads (`from`, `to`, `promotion`, `san`, `captured`). -/
structure MoveInfo where
  mfrom : String
  mto : String
  promotion : Option String
  san : String
  captured : Option String
  deriving Repr, DecidableEq

/-- Oracle for the external chess rules engine (chess.js), specified by the
spec only at its interface boundary. `move` answers the trial
`game.move({from,to,promotion})`; app.js immediately calls `game.undo()`, so
the pair is embedded as one pure, non-mutating legality-and-info query. -/
structure Rules where
  get : String → String → Option Piece
  turn : String → String
  move : String → String → String → Option String → Option MoveInfo

/-- Oracle for the evaluation service: `(fen, uci, depth)` to a result or a
network/service failure (a rejected `postJSON` promise). -/
abbrev EvalService := String → String → Nat → Except String EvalResult

/-- The module-level mutable state of app.js, gathered into a record:
`game` (serialized as its FEN), `pending`, `gameMode`, `difficulty`, the
trend chart's labels/data plus `moveCount`, `squareMistakes`, `evalCache`
(a `Map` keyed by strings, embedded as an association list) and
`moveHistory`. -/
structure AppState where
  gameFen : String
  pending : Option Pending
  gameMode : Option String
  difficulty : String
  chartLabels : List String
  chartData : List Int
  moveCount : Nat
  squareMistakes : List (String × Nat)
  evalCache : List (String × EvalResult)
  moveHistory : List MoveRecord
  deriving Repr, DecidableEq

/-- Canonical starting-position FEN produced by the rules engine's
`game.reset()` / `new Chess()`. -/
def startFen : String := "rnbqkbnr/pppppppp/8/8/8/8/PPPPPPPP/RNBQKBNR w KQkq - 0 1"

/-- Module state right after the `load` handler runs (app.js 8-19, 513-531):
fresh game, no pending proposal, `difficulty = "easy"` (line 12), empty chart,
heatmap, cache and history. -/
def initialState : AppState :=
  { gameFen := startFen
    pending := none
    gameMode := none
    difficulty := "easy"
    chartLabels := []
    chartData := []
    moveCount := 0
    squareMistakes := []
    evalCache := []
    moveHistory := [] }

/-- Association-list update with JS object/Map semantics: replace the value at
the key if present, otherwise append the binding. -/
def mapSet {α : Type} : List (String × α) → String → α → List (String × α)
  | [], k, v => [(k, v)]
  | (k', v') :: rest, k, v =>
    if k' = k then (k, v) :: rest else (k', v') :: mapSet rest k v

/-- Lookup with a zero default: `squareMistakes[sq] || 0`. -/
def countOf (m : List (String × Nat)) (sq : String) : Nat :=
  (m.lookup sq).getD 0

/-- Embedding of `squareMistakes[sq] = (squareMistakes[sq] || 0) + 1`
(app.js 612). -/
def bump (m : List (String × Nat)) (sq : String) : List (String × Nat) :=
  mapSet m sq (countOf m sq + 1)

/-- Embedding of `Math.max(...entries.map(([, c]) => c))` (app.js 215). -/
def maxCount (m : List (String × Nat)) : Nat :=
  m.foldr (fun e acc => Nat.max e.2 acc) 0

/-- Per-square heatmap intensity `count / maxCount` from `updateHeatmap`
(app.js 212-221); the function returns early when no counts are recorded, so
the intensity is 0 there. -/
def intensity (m : List (String × Nat)) (sq : String) : ℚ :=
  if m = [] then 0 else (countOf m sq : ℚ) / (maxCount m : ℚ)

/-- The `badBuckets` array of the confirm handler (app.js 609). -/
def badBuckets : List String := ["Cool", "Cold", "Freezing"]

/-- UCI move code built at app.js 365:
`move.from + move.to + (move.promotion || "")`. -/
def uciOf (mv : MoveInfo) : String := mv.mfrom ++ mv.mto ++ mv.promotion.getD ""

/-- Evaluation-cache key template string of app.js 374: `fen|uci|depth`. -/
def mkKey (f uci : String) (depth : Nat) : String :=
  f ++ "|" ++ uci ++ "|" ++ toString depth

/-- Promotion detection of `onDrop` (app.js 350-353): the moved piece is a
pawn and the target square's rank character (`target[1]`) is the last rank
for the piece's color. -/
def needsPromotion (rules : Rules) (fen source target : String) : Bool :=
  match rules.get fen source with
  | some p =>
    p.ptype == "p" && (target.data.get? 1 == some (if p.pcolor == "w" then '8' else '1'))
  | none => false

/-- Trial application of `onDrop` (app.js 355-358): always promote to queen
when a promotion is needed, then ask the rules engine for the move. -/
def proposeMove (rules : Rules) (fen source target : String) : Option MoveInfo :=
  rules.move fen source target (if needsPromotion rules fen source target then some "q" else none)

/-- Embedding of the `onDrop` handler (app.js 346-414). Returns the new state
together with the number of evaluation-service requests issued (0 or 1).
An illegal move leaves the state untouched (message + snapback are UI). On a
legal move the handler undoes the trial application (so `gameFen` never
changes), consults `evalCache` at `fen|uci|depth`; on a hit it builds the
pending proposal from the cached result; on a miss it calls the service and,
on success, inserts the result and builds the proposal, while on failure it
only alerts — neither the cache nor `pending` is touched. -/
def onDrop (rules : Rules) (svc : EvalService) (st : AppState)
    (source target : String) : AppState × Nat :=
  match proposeMove rules st.gameFen source target with
  | none => (st, 0)
  | some mv =>
    let colorBefore := rules.turn st.gameFen
    let uci := uciOf mv
    let depth := evalDepth st.difficulty
    let key := mkKey st.gameFen uci depth
    match st.evalCache.lookup key with
    | some evalRes =>
      ({ st with pending := some ⟨source, target, uci, evalRes, mv.san, colorBefore, mv.captured⟩ }, 0)
    | none =>
      match svc st.gameFen uci depth with
      | Except.ok evalRes =>
        ({ st with
            evalCache := mapSet st.evalCache key evalRes
            pending := some ⟨source, target, uci, evalRes, mv.san, colorBefore, mv.captured⟩ }, 1)
      | Except.error _ => (st, 1)

/-- MoveRecord pushed by the confirm handler (app.js 618-622). -/
def commitRecord (p : Pending) : MoveRecord := ⟨p.color, p.san, p.captured⟩

/-- Embedding of the `confirmMove` click handler (app.js 591-639), as a
function of the commit service's response (`/api/make-move` returning the new
FEN, or a failure). With no pending proposal the handler is a no-op. On
success it appends one trend point (the guard `typeof userCp === "number"`
always holds for a service-shaped result), bumps the mistake heatmap when the
bucket is truthy, in `badBuckets` and the destination is truthy, pushes one
`moveHistory` record, loads the returned FEN and clears `pending`. On failure
(the `catch` block) it only clears `pending`. The conditional engine-reply
hand-off of lines 632-634 belongs to the Engine Reply Coordinator, which
appends the engine's own record separately and is not part of the commit. -/
def confirmMove (st : AppState) (res : Except String String) : AppState :=
  match st.pending with
  | none => st
  | some p =>
    match res with
    | Except.ok newFen =>
      { st with
          chartLabels := st.chartLabels ++ [toString (st.moveCount + 1)]
          chartData := st.chartData ++ [(evalBandInfo p.eval.userCp).index]
          moveCount := st.moveCount + 1
          squareMistakes :=
            if p.eval.bucket ≠ "" ∧ badBuckets.contains p.eval.bucket ∧ p.toSq ≠ ""
            then bump st.squareMistakes p.toSq
            else st.squareMistakes
          moveHistory := st.moveHistory ++ [commitRecord p]
          gameFen := newFen
          pending := none }
    | Except.error _ => { st with pending := none }

/-- Embedding of the `cancelMove` click handler (app.js 642-646). -/
def cancelMove (st : AppState) : AppState := { st with pending := none }

/-- Embedding of the `resetBtn` click handler (app.js 649-661):
`game.reset()`, `resetEvalChart()` (chart emptied, `moveCount = 0`),
`resetHeatmap()` (`squareMistakes = {}`), `moveHistory = []`, plus pure UI
refresh calls. Note the handler does not assign `pending`. -/
def resetHandler (st : AppState) : AppState :=
  { st with
      gameFen := startFen
      chartLabels := []
      chartData := []
      moveCount := 0
      squareMistakes := []
      moveHistory := [] }

/-- Concrete rules-engine oracle for witnesses: every drop is a legal knight
move, white to move, no capture. -/
def testRules : Rules :=
  { get := fun _ _ => some ⟨"n", "w"⟩
    turn := fun _ => "w"
    move := fun _ source target _ => some ⟨source, target, none, "Nf3", none⟩ }

/-- Concrete always-succeeding evaluation service for witnesses. -/
def svcOk : EvalService := fun _ _ _ => Except.ok ⟨30, "Warm", "OK move", ""⟩

/-- Concrete always-failing evaluation service for witnesses. -/
def svcFail : EvalService := fun _ _ _ => Except.error "network"

/-- Concrete pending proposal used by the C1 witness. -/
def pendW : Pending := ⟨"e2", "e4", "e2e4", ⟨30, "Warm", "fine", ""⟩, "e4", "w", none⟩

/-- State with a pending proposal, used by the C1 witness. -/
def stW : AppState := { initialState with pending := some pendW }

/-- Prior pending proposal for the C3 counterexample. -/
def p0 : Pending := ⟨"d2", "d4", "d2d4", ⟨10, "Warm", "ok", ""⟩, "d4", "w", none⟩

/-- State holding the prior proposal `p0`, used for C3. -/
def stPrior : AppState := { initialState with pending := some p0 }

/-- Trace for the C2 counterexample: propose, commit, propose again, then hit
Reset while the second proposal is pending. -/
def cexTrace : AppState :=
  resetHandler
    (onDrop testRules svcOk
      (confirmMove (onDrop testRules svcOk initialState "g1" "f3").1 (Except.ok "FEN2"))
      "b8" "c6").1

/-- Pending proposal landing on `tosq` with the given evaluation bucket, for
the heatmap example of C7. -/
def heatPend (tosq bucket : String) : Pending :=
  ⟨"x", tosq, "uci", ⟨-120, bucket, "", ""⟩, "san", "w", none⟩

/-- The spec's heatmap example trace: commits landing on e4 (bucket "Cold"),
e4 (bucket "Hot"), d5 (bucket "Freezing"). -/
def heatTrace : AppState :=
  confirmMove
    { confirmMove
        { confirmMove { initialState with pending := some (heatPend "e4" "Cold") }
            (Except.ok "F1") with
          pending := some (heatPend "e4" "Hot") }
        (Except.ok "F2") with
      pending := some (heatPend "d5" "Freezing") }
    (Except.ok "F3")

/-! Helper lemmas. -/

/-- Dividing by 100 preserves strict comparison of integer numerators. -/
theorem qthreshold (cp k : Int) : ((cp:ℚ)/100 > (k:ℚ)/100) ↔ k < cp := by
  have h100 : (0:ℚ) < 100 := by norm_num
  rw [gt_iff_lt, div_lt_div_iff₀ h100 h100, mul_lt_mul_right h100]
  exact Int.cast_lt

theorem band_cond_150 (cp : Int) : ((cp:ℚ)/100 > 3/2) ↔ 150 < cp := by
  have h : ((3:ℚ)/2) = ((150:Int):ℚ)/100 := by norm_num
  rw [h, qthreshold]

theorem band_cond_50 (cp : Int) : ((cp:ℚ)/100 > 1/2) ↔ 50 < cp := by
  have h : ((1:ℚ)/2) = ((50:Int):ℚ)/100 := by norm_num
  rw [h, qthreshold]

theorem band_cond_neg50 (cp : Int) : ((cp:ℚ)/100 > -(1/2)) ↔ -50 < cp := by
  have h : (-((1:ℚ)/2)) = ((-50:Int):ℚ)/100 := by norm_num
  rw [h, qthreshold]

theorem band_cond_neg150 (cp : Int) : ((cp:ℚ)/100 > -(3/2)) ↔ -150 < cp := by
  have h : (-((3:ℚ)/2)) = ((-150:Int):ℚ)/100 := by norm_num
  rw [h, qthreshold]

/-- The rational threshold cascade of `evalBandInfo` coincides with integer
thresholds at 150, 50, -50 and -150 centipawns. -/
theorem evalBandInfo_eq (cp : Int) :
    evalBandInfo cp =
      (if 150 < cp then ⟨2, "Winning for White"⟩
       else if 50 < cp then ⟨1, "Better for White"⟩
       else if -50 < cp then ⟨0, "Roughly equal"⟩
       else if -150 < cp then ⟨-1, "Better for Black"⟩
       else ⟨-2, "Winning for Black"⟩ : BandInfo) := by
  unfold evalBandInfo
  simp only [band_cond_150, band_cond_50, band_cond_neg50, band_cond_neg150]

/-- Rounding an integer-valued rational is the identity. -/
theorem jsRound_intCast (i : Int) : jsRound ((i:ℚ)) = i := by
  unfold jsRound
  rw [Int.floor_int_add]
  norm_num

/-- Updating a binding makes it visible to lookup. -/
theorem lookup_mapSet_self {α : Type} (m : List (String × α)) (k : String) (v : α) :
    (mapSet m k v).lookup k = some v := by
  induction m with
  | nil => simp [mapSet, List.lookup]
  | cons hd tl ih =>
    obtain ⟨k', v'⟩ := hd
    by_cases h : k' = k
    · simp [mapSet, h, List.lookup]
    · simp only [mapSet, if_neg h, List.lookup]
      have : (k == k') = false := by simp [Ne.symm h]
      simp [this, ih]

/-- Updating one binding leaves the others untouched. -/
theorem lookup_mapSet_other {α : Type} (m : List (String × α)) (k k' : String) (v : α)
    (h : k' ≠ k) : (mapSet m k v).lookup k' = m.lookup k' := by
  induction m with
  | nil =>
    have hbe : (k' == k) = false := by simp [h]
    simp [mapSet, List.lookup, hbe]
  | cons hd tl ih =>
    obtain ⟨k0, v0⟩ := hd
    by_cases h0 : k0 = k
    · subst h0
      have hbe : (k' == k0) = false := by simp [h]
      simp [mapSet, List.lookup, hbe]
    · simp only [mapSet, if_neg h0, List.lookup]
      cases hbe : (k' == k0) <;> simp [hbe, ih]

/-- Bumping a square increments exactly its own count. -/
theorem countOf_bump_self (m : List (String × Nat)) (sq : String) :
    countOf (bump m sq) sq = countOf m sq + 1 := by
  unfold bump countOf
  rw [lookup_mapSet_self]
  rfl

/-- Bumping a square leaves every other square's count unchanged. -/
theorem countOf_bump_other (m : List (String × Nat)) (sq sq' : String) (h : sq' ≠ sq) :
    countOf (bump m sq) sq' = countOf m sq' := by
  unfold bump countOf
  rw [lookup_mapSet_other _ _ _ _ h]

/-- Every recorded count is bounded by the running maximum. -/
theorem countOf_le_maxCount (m : List (String × Nat)) (sq : String) :
    countOf m sq ≤ maxCount m := by
  induction m with
  | nil => simp [countOf, maxCount, List.lookup]
  | cons hd tl ih =>
    obtain ⟨k, v⟩ := hd
    simp only [countOf, List.lookup, maxCount, List.foldr] at *
    cases hbe : (sq == k)
    · simp only [hbe]
      exact le_trans ih (Nat.le_max_right _ _)
    · simp only [hbe]
      exact Nat.le_max_left _ _

/-- Heatmap intensity is non-negative. -/
theorem intensity_nonneg (m : List (String × Nat)) (sq : String) :
    0 ≤ intensity m sq := by
  unfold intensity
  split_ifs
  · exact le_refl 0
  · positivity

/-- Heatmap intensity never exceeds 1. -/
theorem intensity_le_one (m : List (String × Nat)) (sq : String) :
    intensity m sq ≤ 1 := by
  unfold intensity
  split_ifs with h
  · norm_num
  · by_cases hm : maxCount m = 0
    · have hc : countOf m sq = 0 := Nat.le_zero.mp (hm ▸ countOf_le_maxCount m sq)
      simp [hc]
    · rw [div_le_one (by exact_mod_cast Nat.pos_of_ne_zero hm)]
      exact_mod_cast countOf_le_maxCount m sq

/-- Membership in the bad-bucket list is an exact, case-sensitive string
match against Cool, Cold or Freezing. -/
theorem badBuckets_contains_iff (b : String) :
    badBuckets.contains b = true ↔ (b = "Cool" ∨ b = "Cold" ∨ b = "Freezing") := by
  simp [badBuckets]

/-- C5 counterexample: the claim asserts `classify(-50)` yields index 0
("Roughly equal"), but the source's strict cascade sends the tie at
`pawns = -0.5` to index -1 ("Better for Black"). -/
theorem C5_counterexample :
    (evalBandInfo (-50)).index = -1 ∧ (evalBandInfo (-50)).index ≠ 0 :=
  ⟨by norm_num [evalBandInfo], by norm_num [evalBandInfo]⟩

/-- C5 (amended): `classify` follows the half-open thresholds on `cp/100`
with every tie falling downward to the lower band index (lower magnitude on
the positive boundaries, higher magnitude on the negative ones):
`classify(150) = (1, "Better for White")`, `classify(151) = (2, "Winning for
White")`, `classify(50) = (0, "Roughly equal")`, `classify(-50) = (-1,
"Better for Black")`, `classify(-51) = (-1, "Better for Black")`, and
`classify(-150) = (-2, "Winning for Black")`. -/
theorem C5_band_boundaries :
    evalBandInfo 150 = ⟨1, "Better for White"⟩ ∧
    evalBandInfo 151 = ⟨2, "Winning for White"⟩ ∧
    evalBandInfo 50 = ⟨0, "Roughly equal"⟩ ∧
    evalBandInfo (-50) = ⟨-1, "Better for Black"⟩ ∧
    evalBandInfo (-51) = ⟨-1, "Better for Black"⟩ ∧
    evalBandInfo (-150) = ⟨-2, "Winning for Black"⟩ := by
  refine ⟨?_, ?_, ?_, ?_, ?_, ?_⟩ <;> norm_num [evalBandInfo]

/-- C6: for every integer `cp` the classifier's index lies in
`{-2,-1,0,1,2}`, and the index is monotone: `cp1 ≤ cp2` implies
`classify(cp1).index ≤ classify(cp2).index`. -/
theorem C6_band_range_mono :
    (∀ cp : Int,
      (evalBandInfo cp).index = -2 ∨ (evalBandInfo cp).index = -1 ∨
      (evalBandInfo cp).index = 0 ∨ (evalBandInfo cp).index = 1 ∨
      (evalBandInfo cp).index = 2) ∧
    (∀ cp1 cp2 : Int, cp1 ≤ cp2 →
      (evalBandInfo cp1).index ≤ (evalBandInfo cp2).index) := by
  constructor
  · intro cp
    rw [evalBandInfo_eq]
    split_ifs <;> simp
  · intro cp1 cp2 h
    rw [evalBandInfo_eq, evalBandInfo_eq]
    split_ifs <;> simp <;> omega

/-- C6 witness: the monotonicity clause applied at `cp1 = 0`, `cp2 = 100`. -/
theorem C6_band_range_mono_witness :
    (0:Int) ≤ 100 ∧ (evalBandInfo 0).index ≤ (evalBandInfo 100).index :=
  ⟨by norm_num, C6_band_range_mono.2 0 100 (by norm_num)⟩

/-- C8 counterexample: the claim says the default level is Medium, but
app.js line 12 initialises `difficulty = "easy"`, whose depth pair is
(8, 10), not Medium's (12, 16). -/
theorem C8_counterexample :
    initialState.difficulty = "easy" ∧ initialState.difficulty ≠ "medium" ∧
    evalDepth initialState.difficulty = 8 ∧ bestMoveDepth initialState.difficulty = 10 :=
  ⟨rfl, by decide, rfl, rfl⟩

/-- C8 (amended): the level-to-depth mapping is the fixed table
easy→(8,10), medium→(12,16), hard→(18,22) with unset/unknown input falling
back to (12,18); the functions are pure and total; the default (initial)
level is Easy, not Medium. -/
theorem C8_difficulty_policy :
    evalDepth "easy" = 8 ∧ bestMoveDepth "easy" = 10 ∧
    evalDepth "medium" = 12 ∧ bestMoveDepth "medium" = 16 ∧
    evalDepth "hard" = 18 ∧ bestMoveDepth "hard" = 22 ∧
    (∀ level : String, level ≠ "easy" → level ≠ "medium" → level ≠ "hard" →
      evalDepth level = 12 ∧ bestMoveDepth level = 18) ∧
    initialState.difficulty = "easy" := by
  refine ⟨rfl, rfl, rfl, rfl, rfl, rfl, ?_, rfl⟩
  intro level h1 h2 h3
  constructor
  · unfold evalDepth
    split <;> simp_all
  · unfold bestMoveDepth
    split <;> simp_all

/-- C8 witness: the fallback row applied at the unknown level "expert". -/
theorem C8_difficulty_policy_witness :
    ("expert" : String) ≠ "easy" ∧ evalDepth "expert" = 12 ∧ bestMoveDepth "expert" = 18 :=
  ⟨by decide,
    (C8_difficulty_policy.2.2.2.2.2.2.1 "expert" (by decide) (by decide) (by decide)).1,
    (C8_difficulty_policy.2.2.2.2.2.2.1 "expert" (by decide) (by decide) (by decide)).2⟩

/-- Evaluating the tick renderer at an integer-valued input follows the
switch on the (identity) rounding. -/
theorem bandLabel_intCast (i : Int) :
    bandLabelFromIndex ((i:ℚ)) =
      (if i = 2 then "Winning for White"
       else if i = 1 then "Better for White"
       else if i = 0 then "Equal"
       else if i = -1 then "Better for Black"
       else if i = -2 then "Winning for Black" else "") := by
  simp only [bandLabelFromIndex, jsRound_intCast]

/-- C9 counterexample: the claim asserts every non-integer input yields the
empty string, but 2.4 (which differs from its own rounding, hence is not an
integer) rounds to 2 and yields "Winning for White". -/
theorem C9_counterexample :
    ((jsRound (12/5 : ℚ) : ℚ) ≠ (12/5 : ℚ)) ∧
    bandLabelFromIndex (12/5) = "Winning for White" ∧
    bandLabelFromIndex (12/5) ≠ "" := by
  refine ⟨?_, ?_, ?_⟩
  · norm_num [jsRound]
  · norm_num [bandLabelFromIndex, jsRound]
  · have h2 : bandLabelFromIndex (12/5 : ℚ) = "Winning for White" := by
      norm_num [bandLabelFromIndex, jsRound]
    rw [h2]
    decide

/-- C9 (amended): `labelForIndex` returns the empty string exactly when the
rounded input lies outside `[-2,2]` (not for every non-integer input); for
inputs that round into `[-2,2]`, in particular the integer inputs -2..2, it
returns the band label of the rounded index. -/
theorem C9_label_default (x : ℚ) :
    (bandLabelFromIndex x = "" ↔ (jsRound x < -2 ∨ 2 < jsRound x)) ∧
    bandLabelFromIndex (2 : ℚ) = "Winning for White" ∧
    bandLabelFromIndex (1 : ℚ) = "Better for White" ∧
    bandLabelFromIndex (0 : ℚ) = "Equal" ∧
    bandLabelFromIndex (-1 : ℚ) = "Better for Black" ∧
    bandLabelFromIndex (-2 : ℚ) = "Winning for Black" := by
  constructor
  · simp only [bandLabelFromIndex]
    split_ifs <;>
      first
        | exact ⟨fun hh => absurd hh (by decide), fun hh => absurd hh (by omega)⟩
        | exact ⟨fun _ => by omega, fun _ => rfl⟩
  · refine ⟨?_, ?_, ?_, ?_, ?_⟩ <;> norm_num [bandLabelFromIndex, jsRound]

/-- C9 witness: the default branch applied at tick value 3. -/
theorem C9_label_default_witness :
    bandLabelFromIndex (3 : ℚ) = "" :=
  (C9_label_default 3).1.mpr (Or.inr (by norm_num [jsRound]))

/-- C10: the tick renderer and the classifier disagree only at index 0,
where `bandLabelFromIndex` says "Equal" while `evalBandInfo`'s label is
"Roughly equal"; at the other four indices the two labels coincide. -/
theorem C10_label_vocab (cp : Int) :
    ((evalBandInfo cp).index = 0 →
      bandLabelFromIndex ((evalBandInfo cp).index : ℚ) = "Equal" ∧
      (evalBandInfo cp).label = "Roughly equal" ∧
      bandLabelFromIndex ((evalBandInfo cp).index : ℚ) ≠ (evalBandInfo cp).label) ∧
    ((evalBandInfo cp).index ≠ 0 →
      bandLabelFromIndex ((evalBandInfo cp).index : ℚ) = (evalBandInfo cp).label) := by
  rw [evalBandInfo_eq]
  split_ifs <;> refine ⟨fun h => ?_, fun h => ?_⟩ <;>
    simp only [bandLabel_intCast] <;> simp_all

/-- C10 witness: the mismatch exhibited at `cp = 0` (index 0). -/
theorem C10_label_vocab_witness :
    (evalBandInfo 0).index = 0 ∧
    (bandLabelFromIndex ((evalBandInfo 0).index : ℚ) = "Equal" ∧
     (evalBandInfo 0).label = "Roughly equal" ∧
     bandLabelFromIndex ((evalBandInfo 0).index : ℚ) ≠ (evalBandInfo 0).label) :=
  ⟨by norm_num [evalBandInfo], (C10_label_vocab 0).1 (by norm_num [evalBandInfo])⟩

/-- C1: commit atomicity of the confirm handler. With a pending proposal, a
successful commit appends exactly one MoveRecord (the pending one), advances
the authoritative position exactly once (to the returned FEN) and clears the
proposal; a failed commit appends nothing, leaves the position, trend chart,
heatmap and cache untouched, and clears the proposal. -/
theorem C1_confirm_atomicity (st : AppState) (p : Pending) (newFen err : String)
    (h : st.pending = some p) :
    ((confirmMove st (Except.ok newFen)).moveHistory = st.moveHistory ++ [commitRecord p] ∧
     (confirmMove st (Except.ok newFen)).moveHistory.length = st.moveHistory.length + 1 ∧
     (confirmMove st (Except.ok newFen)).gameFen = newFen ∧
     (confirmMove st (Except.ok newFen)).pending = none) ∧
    ((confirmMove st (Except.error err)).moveHistory = st.moveHistory ∧
     (confirmMove st (Except.error err)).gameFen = st.gameFen ∧
     (confirmMove st (Except.error err)).chartLabels = st.chartLabels ∧
     (confirmMove st (Except.error err)).chartData = st.chartData ∧
     (confirmMove st (Except.error err)).moveCount = st.moveCount ∧
     (confirmMove st (Except.error err)).squareMistakes = st.squareMistakes ∧
     (confirmMove st (Except.error err)).evalCache = st.evalCache ∧
     (confirmMove st (Except.error err)).pending = none) := by
  unfold confirmMove
  rw [h]
  simp

/-- C1 witness: atomicity at a concrete pending state. -/
theorem C1_confirm_atomicity_witness :
    stW.pending = some pendW ∧
    (confirmMove stW (Except.ok "FEN2")).pending = none ∧
    (confirmMove stW (Except.error "boom")).moveHistory = stW.moveHistory :=
  ⟨rfl, (C1_confirm_atomicity stW pendW "FEN2" "boom" rfl).1.2.2.2,
    (C1_confirm_atomicity stW pendW "FEN2" "boom" rfl).2.1⟩

/-- C2 counterexample: propose, commit, propose again, then Reset — the
ledger, chart and heatmap are emptied and the position returns to the start,
but the pending proposal survives, because the resetBtn handler never assigns
`pending` (app.js 649-661). The claim's "PendingProposal is null" fails. -/
theorem C2_counterexample :
    cexTrace.moveHistory = [] ∧ cexTrace.gameFen = startFen ∧ cexTrace.pending ≠ none := by
  refine ⟨rfl, rfl, ?_⟩
  have hp : cexTrace.pending =
      some ⟨"b8", "c6", "b8c6", ⟨30, "Warm", "OK move", ""⟩, "Nf3", "w", none⟩ := rfl
  rw [hp]
  simp

/-- C2 (amended): after reset() the Move Ledger is empty, the Trend Series is
empty with ply counter zero, all heatmap counts are zero and the
authoritative position equals the canonical starting position, but the
PendingProposal is left unchanged (so it is null only if it already was);
reset does not itself clear a pending proposal. -/
theorem C2_reset_postcondition (st : AppState) :
    (resetHandler st).moveHistory = [] ∧
    (resetHandler st).chartLabels = [] ∧
    (resetHandler st).chartData = [] ∧
    (resetHandler st).moveCount = 0 ∧
    (resetHandler st).squareMistakes = [] ∧
    (resetHandler st).gameFen = startFen ∧
    (resetHandler st).pending = st.pending :=
  ⟨rfl, rfl, rfl, rfl, rfl, rfl, rfl⟩

/-- C3 counterexample: with proposal `p0` already pending, a new propose
whose evaluation call fails leaves `p0` pending — the claim's "no pending
proposal exists afterwards, including any proposal that was pending before"
fails, because the catch block of `onDrop` (app.js 408-411) only alerts. -/
theorem C3_counterexample :
    (onDrop testRules svcFail stPrior "e2" "e4").1.pending = some p0 ∧
    (onDrop testRules svcFail stPrior "e2" "e4").1.pending ≠ none := by
  refine ⟨rfl, ?_⟩
  have hp : (onDrop testRules svcFail stPrior "e2" "e4").1.pending = some p0 := rfl
  rw [hp]
  simp

/-- C3 (amended): when the evaluation-service call of a propose fails, no
PendingProposal is created from the candidate and the whole state is left
unchanged — in particular a previously pending proposal stays pending rather
than being cleared (the controller is back in Idle only if it already was);
the candidate is discarded and the failure surfaced as a recoverable alert. -/
theorem C3_eval_failure (rules : Rules) (svc : EvalService) (st : AppState)
    (source target err : String) (mv : MoveInfo)
    (hmv : proposeMove rules st.gameFen source target = some mv)
    (hmiss : st.evalCache.lookup (mkKey st.gameFen (uciOf mv) (evalDepth st.difficulty)) = none)
    (hsvc : svc st.gameFen (uciOf mv) (evalDepth st.difficulty) = Except.error err) :
    onDrop rules svc st source target = (st, 1) := by
  simp only [onDrop, hmv, hmiss, hsvc]

/-- C3 witness: the failure path at a concrete prior-pending state. -/
theorem C3_eval_failure_witness :
    proposeMove testRules stPrior.gameFen "e2" "e4" = some ⟨"e2", "e4", none, "Nf3", none⟩ ∧
    onDrop testRules svcFail stPrior "e2" "e4" = (stPrior, 1) :=
  ⟨rfl, C3_eval_failure testRules svcFail stPrior "e2" "e4" "network"
    ⟨"e2", "e4", none, "Nf3", none⟩ rfl rfl rfl⟩

/-- C4: evaluation-cache deduplication. For two drops with the same
(position, move code, depth) triple, the first (a miss) issues exactly one
service request and caches the result; the second issues zero requests and
its proposal carries exactly the cached result, whatever the service would
now answer. Keys are the exact `fen|uci|depth` strings, so distinct move
codes give distinct keys. -/
theorem C4_eval_cache_dedup :
    (∀ (rules : Rules) (svc svc2 : EvalService) (st : AppState)
       (source target : String) (mv : MoveInfo) (ev : EvalResult),
      proposeMove rules st.gameFen source target = some mv →
      st.evalCache.lookup (mkKey st.gameFen (uciOf mv) (evalDepth st.difficulty)) = none →
      svc st.gameFen (uciOf mv) (evalDepth st.difficulty) = Except.ok ev →
      (onDrop rules svc st source target).2 = 1 ∧
      (onDrop rules svc st source target).1.evalCache.lookup
          (mkKey st.gameFen (uciOf mv) (evalDepth st.difficulty)) = some ev ∧
      (onDrop rules svc2 (onDrop rules svc st source target).1 source target).2 = 0 ∧
      (onDrop rules svc2 (onDrop rules svc st source target).1 source target).1.pending.map
          Pending.eval = some ev) ∧
    (∀ (f u1 u2 : String) (d : Nat), u1 ≠ u2 → mkKey f u1 d ≠ mkKey f u2 d) := by
  constructor
  · intro rules svc svc2 st source target mv ev hmv hmiss hok
    have h1 : onDrop rules svc st source target =
        ({ st with
            evalCache := mapSet st.evalCache
              (mkKey st.gameFen (uciOf mv) (evalDepth st.difficulty)) ev
            pending := some ⟨source, target, uciOf mv, ev, mv.san,
              rules.turn st.gameFen, mv.captured⟩ }, 1) := by
      simp only [onDrop, hmv, hmiss, hok]
    refine ⟨by rw [h1], ?_, ?_, ?_⟩
    · rw [h1]
      exact lookup_mapSet_self _ _ _
    · rw [h1]
      simp only [onDrop, hmv, lookup_mapSet_self]
    · rw [h1]
      simp only [onDrop, hmv, lookup_mapSet_self]
      rfl
  · intro f u1 u2 d h he
    apply h
    unfold mkKey at he
    have hd := congrArg String.data he
    simp only [String.data_append] at hd
    have h1 := List.append_cancel_right hd
    have h2 := List.append_cancel_right h1
    have h3 := List.append_cancel_left h2
    exact String.ext h3

/-- C4 witness: the dedup pair run at a concrete state and move. -/
theorem C4_eval_cache_dedup_witness :
    (onDrop testRules svcOk initialState "g1" "f3").2 = 1 ∧
    (onDrop testRules svcFail (onDrop testRules svcOk initialState "g1" "f3").1 "g1" "f3").2 = 0 :=
  ⟨(C4_eval_cache_dedup.1 testRules svcOk svcFail initialState "g1" "f3"
      ⟨"g1", "f3", none, "Nf3", none⟩ ⟨30, "Warm", "OK move", ""⟩ rfl rfl rfl).1,
   (C4_eval_cache_dedup.1 testRules svcOk svcFail initialState "g1" "f3"
      ⟨"g1", "f3", none, "Nf3", none⟩ ⟨30, "Warm", "OK move", ""⟩ rfl rfl rfl).2.2.1⟩

/-- C7: the mistake heatmap. A confirmed commit increments exactly the
destination square's count, and exactly when the bucket is one of Cool, Cold,
Freezing (case-sensitive) and the destination is known; intensity is
count/max, within [0,1], and zero when no counts are recorded; the spec's
example trace (e4 "Cold", e4 "Hot", d5 "Freezing") yields counts
e4 = 1, d5 = 1 with both intensities 1. -/
theorem C7_mistake_heatmap :
    (∀ (st : AppState) (p : Pending) (newFen sq : String), st.pending = some p →
      countOf (confirmMove st (Except.ok newFen)).squareMistakes sq =
        countOf st.squareMistakes sq +
          (if (p.eval.bucket = "Cool" ∨ p.eval.bucket = "Cold" ∨ p.eval.bucket = "Freezing") ∧
              p.toSq ≠ "" ∧ sq = p.toSq then 1 else 0)) ∧
    (∀ (m : List (String × Nat)) (sq : String),
      0 ≤ intensity m sq ∧ intensity m sq ≤ 1) ∧
    intensity [] "e4" = 0 ∧
    heatTrace.squareMistakes = [("e4", 1), ("d5", 1)] ∧
    intensity heatTrace.squareMistakes "e4" = 1 ∧
    intensity heatTrace.squareMistakes "d5" = 1 := by
  have key : ∀ (st : AppState) (p : Pending) (newFen sq : String), st.pending = some p →
      countOf (confirmMove st (Except.ok newFen)).squareMistakes sq =
        countOf st.squareMistakes sq +
          (if (p.eval.bucket = "Cool" ∨ p.eval.bucket = "Cold" ∨ p.eval.bucket = "Freezing") ∧
              p.toSq ≠ "" ∧ sq = p.toSq then 1 else 0) := by
    intro st p newFen sq h
    have hiff : (p.eval.bucket ≠ "" ∧ badBuckets.contains p.eval.bucket ∧ p.toSq ≠ "") ↔
        ((p.eval.bucket = "Cool" ∨ p.eval.bucket = "Cold" ∨ p.eval.bucket = "Freezing") ∧
          p.toSq ≠ "") := by
      constructor
      · rintro ⟨h1, h2, h3⟩
        exact ⟨(badBuckets_contains_iff _).mp h2, h3⟩
      · rintro ⟨h1, h3⟩
        refine ⟨?_, (badBuckets_contains_iff _).mpr h1, h3⟩
        rcases h1 with h1 | h1 | h1 <;> simp [h1]
    unfold confirmMove
    rw [h]
    dsimp only
    split_ifs with hc1 hc2 hc3
    · obtain ⟨_, _, hsq⟩ := hc2
      subst hsq
      exact countOf_bump_self _ _
    · have hsq : sq ≠ p.toSq := by
        have := hiff.mp hc1
        tauto
      rw [countOf_bump_other _ _ _ hsq]
      omega
    · exact absurd (hiff.mpr ⟨hc3.1, hc3.2.1⟩) hc1
    · omega
  refine ⟨key, fun m sq => ⟨intensity_nonneg m sq, intensity_le_one m sq⟩, by simp [intensity],
    rfl, ?_, ?_⟩
  · have hc : countOf [("e4", 1), ("d5", 1)] "e4" = 1 := by decide
    have hm : maxCount [("e4", 1), ("d5", 1)] = 1 := by decide
    have h4 : heatTrace.squareMistakes = [("e4", 1), ("d5", 1)] := rfl
    rw [h4]
    unfold intensity
    rw [if_neg (by decide : ¬([("e4", 1), ("d5", 1)] : List (String × Nat)) = []), hc, hm]
    norm_num
  · have hc : countOf [("e4", 1), ("d5", 1)] "d5" = 1 := by decide
    have hm : maxCount [("e4", 1), ("d5", 1)] = 1 := by decide
    have h4 : heatTrace.squareMistakes = [("e4", 1), ("d5", 1)] := rfl
    rw [h4]
    unfold intensity
    rw [if_neg (by decide : ¬([("e4", 1), ("d5", 1)] : List (String × Nat)) = []), hc, hm]
    norm_num

/-- C7 witness: the increment clause at a concrete "Cold" commit on e4. -/
theorem C7_mistake_heatmap_witness :
    countOf (confirmMove { initialState with pending := some (heatPend "e4" "Cold") }
        (Except.ok "F1")).squareMistakes "e4" = 1 := by
  have h := C7_mistake_heatmap.1 { initialState with pending := some (heatPend "e4" "Cold") }
      (heatPend "e4" "Cold") "F1" "e4" rfl
  rw [h]
  decide
